import Mathlib

/-!
Shallow embedding of the access-control kernel of `src/server.js`
(PDFPasswordServer): JWT-style token issue/verify, the `POST /auth` login
handlers (both variants), the `GET /pdf/:filename` handler, the derivative
manifest helper `getPngListForPdf`, and the rate-limiter configuration.

Conventions of the embedding:
  * timestamps are integers in milliseconds (`Date.now()`);
  * the JWT signature is modelled symbolically: a signature is the pair of
    the signed claims and the signing key, and verification succeeds exactly
    when the signature equals that pair (a perfect MAC);
  * the filesystem is a parameter: an existence oracle for the pdf handler,
    and a directory-exists flag plus a listing for the png helper;
  * HTTP responses are inductive values carrying status and body message.
-/

namespace PdfServer

/-- The claims object signed by `jwt.sign` in the auth handlers of
`src/server.js`: an `authenticated` flag and a `timestamp` in milliseconds. -/
structure TokenClaims where
  authenticated : Bool
  timestamp : Int
deriving DecidableEq, Repr

/-- Symbolic signature: the pair of the signed claims and the signing key.
`jwt.verify` succeeds exactly when the signature is this pair. -/
abbrev Sig := TokenClaims × Nat

/-- A structurally well-formed token: claims plus a signature. A malformed
token is modelled as `none` at the use sites. -/
structure SignedToken where
  claims : TokenClaims
  sig : Sig
deriving DecidableEq, Repr

/-- The failure taxonomy of token verification. -/
inductive TokenError where
  | Malformed
  | BadSignature
  | NotAuthenticated
  | Expired
deriving DecidableEq, Repr

/-- `jwt.sign(claims, JWT_SECRET)` from the auth handlers: attach the
symbolic signature of the claims under the key. -/
def jwtSign (c : TokenClaims) (key : Nat) : SignedToken :=
  ⟨c, (c, key)⟩

/-- `jwt.verify(token, JWT_SECRET)` from the pdf handler: a missing or
unparseable token is `Malformed`; a structurally well-formed token whose
signature is not the signature of its claims under the configured key is
`BadSignature`; otherwise the decoded claims are returned. -/
def jwtVerify (tok : Option SignedToken) (key : Nat) :
    Except TokenError TokenClaims :=
  match tok with
  | none => .error .Malformed
  | some t => if t.sig = (t.claims, key) then .ok t.claims else .error .BadSignature

/-- The TTL used by the explicit age check of the pdf handler:
`tokenAge > 3600000` milliseconds, i.e. one hour. -/
def ttlMs : Int := 3600000

/-- The token checks of the `GET /pdf/:filename` handler
(src/server.js lines 86-97 and 280-291), in source order:
`jwt.verify`, then `if (!decoded.authenticated)`, then
`if (Date.now() - decoded.timestamp > 3600000)`. -/
def checkToken (tok : Option SignedToken) (key : Nat) (now : Int) :
    Except TokenError TokenClaims :=
  match jwtVerify tok key with
  | .error e => .error e
  | .ok d =>
    if d.authenticated = false then .error .NotAuthenticated
    else if now - d.timestamp > ttlMs then .error .Expired
    else .ok d

/-- `true` exactly when the token checks of the pdf handler pass. -/
def tokenAccepted (tok : Option SignedToken) (key : Nat) (now : Int) : Bool :=
  match checkToken tok key now with
  | .ok _ => true
  | .error _ => false

/-- The response body the pdf handler sends for each token failure:
the `catch` block sends `Invalid token` (covering both a malformed token
and a bad signature), the flag check sends `Unauthorized`, and the age
check sends `Token expired`. All are sent with status 401. -/
def tokenErrorMessage : TokenError → String
  | .Malformed => "Invalid token"
  | .BadSignature => "Invalid token"
  | .NotAuthenticated => "Unauthorized"
  | .Expired => "Token expired"

/-- Client-visible outcome of the pdf handler: an error JSON with a status
and message, or a streamed file identified by its path. -/
inductive PdfResponse where
  | errorJson (status : Nat) (message : String)
  | stream (filePath : String)
deriving DecidableEq, Repr

/-- The character class `[a-zA-Z0-9\-_\.]` of the filename regex. -/
def isNameChar (c : Char) : Bool :=
  c.isAlpha || c.isDigit || c = '-' || c = '_' || c = '.'

/-- The characters of the literal suffix `.pdf`. -/
def pdfExt : List Char := ['.', 'p', 'd', 'f']

/-- The filename validation `filename.match(/^[a-zA-Z0-9\-_\.]+\.pdf$/)`
of the pdf handler. A string matches the (both-ends-anchored) regex exactly
when it is one or more class characters followed by the literal `.pdf`,
i.e. its length is at least 5, its last four characters are `.pdf`, and
every character before them is in the class. -/
def filenameOk (s : String) : Bool :=
  let cs := s.data
  decide (5 ≤ cs.length) &&
    decide (cs.drop (cs.length - 4) = pdfExt) &&
    (cs.take (cs.length - 4)).all isNameChar

/-- The part of the pdf handler after the token checks
(src/server.js lines 99-120): validate the filename, form the storage path
`path.join(__dirname, 'pdfs', filename)` (modelled as prefixing `pdfs/`),
check existence, and stream. The filesystem existence check is the
parameter `fsExists`. -/
def servePdf (filename : String) (fsExists : String → Bool) : PdfResponse :=
  if filenameOk filename = false then .errorJson 400 ("Invalid filename")
  else
    let filePath := "pdfs/" ++ filename
    if fsExists filePath = false then .errorJson 404 ("PDF not found")
    else .stream filePath

/-- The whole `GET /pdf/:filename` handler: the token checks, whose failure
is answered with status 401 and the branch-specific message, followed by
`servePdf`. -/
def pdfHandler (filename : String) (tok : Option SignedToken) (key : Nat)
    (now : Int) (fsExists : String → Bool) : PdfResponse :=
  match checkToken tok key now with
  | .error e => .errorJson 401 (tokenErrorMessage e)
  | .ok _ => servePdf filename fsExists

/-- Client-visible outcome of the first-variant `POST /auth` handler. -/
inductive AuthResponse where
  | ok (token : SignedToken) (expiresIn : Nat)
  | err (status : Nat) (message : String)
deriving DecidableEq, Repr

/-- The first-variant `POST /auth` handler (src/server.js lines 53-77):
compare the submitted password with `PDF_PASSWORD`; on match sign
`{authenticated: true, timestamp: Date.now()}` and answer
`{success: true, token, expiresIn: 3600}`; otherwise answer status 401
with message `Invalid password`. -/
def authHandler (password secret : String) (key : Nat) (now : Int) :
    AuthResponse :=
  if password = secret then .ok (jwtSign ⟨true, now⟩ key) 3600
  else .err 401 ("Invalid password")

/-- Removal of the first occurrence of the pattern from a character list,
returning the list unchanged when the pattern does not occur: the behaviour
of the JavaScript expression `s.replace(pat, '')` with a string pattern,
which replaces only the first occurrence. -/
def removeFirstAux (pat : List Char) : List Char → List Char
  | [] => []
  | c :: cs =>
    if pat.isPrefixOf (c :: cs) then (c :: cs).drop pat.length
    else c :: removeFirstAux pat cs

/-- `pdfFilename.replace('.pdf', '')` from `getPngListForPdf`: remove the
first occurrence of the pattern. -/
def jsReplaceOnce (s pat : String) : String :=
  ⟨removeFirstAux pat.data s.data⟩

/-- The characters of the literal suffix `.png`. -/
def pngExt : List Char := ['.', 'p', 'n', 'g']

/-- Decimal value of a digit string, as `parseInt` on a `\d+` match. -/
def digitsToNat (ds : List Char) : Nat :=
  ds.foldl (fun a c => a * 10 + (c.toNat - 48)) 0

/-- The page number the sort comparator of `getPngListForPdf` extracts:
`parseInt` of the first group of the end-anchored regex `-(\d+)\.png$`
applied to the entry, with default `'0'`: when the name ends in `.png` and
the stem before that suffix ends in a hyphen followed by one or more
digits, the value of those digits; otherwise 0 (a missing or unparseable
number defaults to 0). -/
def pngPageNum (f : String) : Nat :=
  let cs := f.data
  if cs.drop (cs.length - 4) = pngExt then
    let rev := (cs.take (cs.length - 4)).reverse
    let ds := rev.takeWhile (fun c => c.isDigit)
    match rev.drop ds.length with
    | [] => 0
    | c :: _ => if ds ≠ [] ∧ c = '-' then digitsToNat ds.reverse else 0
  else 0

/-- The comparator of `getPngListForPdf` (`aNum - bNum`, i.e. ascending by
page number), as a Boolean `le` for the stable sort. -/
def pngLe (a b : String) : Bool :=
  decide (pngPageNum a ≤ pngPageNum b)

/-- The filter predicate of `getPngListForPdf`:
`file.startsWith(baseName + '-') && file.endsWith('.png')`, expressed on
the character lists: the name begins with the base name followed by a
hyphen and its last four characters are `.png`. -/
def pngMatches (baseName f : String) : Bool :=
  (baseName.data ++ ['-']).isPrefixOf f.data &&
    decide (f.data.drop (f.data.length - 4) = pngExt)

/-- Insertion of an element into a sorted accumulator, placing it after
every element that compares less-or-equal: the insertion step of a stable
ascending sort. -/
def insertSorted (le : α → α → Bool) (x : α) : List α → List α
  | [] => [x]
  | y :: ys => if le y x then y :: insertSorted le x ys else x :: y :: ys

/-- Stable ascending sort by repeated insertion, modelling
`Array.prototype.sort` with a consistent comparator (required by the
ECMAScript specification to sort stably and consistently with the
comparator). -/
def stableSort (le : α → α → Bool) (l : List α) : List α :=
  l.foldl (fun acc x => insertSorted le x acc) []

/-- `getPngListForPdf(pdfFilename)` from src/server.js lines 204-224.
The filesystem is a parameter: `pngsDirExists` models
`fs.existsSync(pngsDir)` for the fixed directory `pngs`, and `files` models
`fs.readdirSync(pngsDir)`. The JavaScript `Array.prototype.sort` with a
consistent comparator is a stable ascending sort, modelled by
`stableSort`. -/
def getPngListForPdf (pdfFilename : String) (pngsDirExists : Bool)
    (files : List String) : List String :=
  let baseName := jsReplaceOnce pdfFilename (".pdf")
  if pngsDirExists = false then []
  else stableSort pngLe (files.filter (pngMatches baseName))

/-- Client-visible outcome of the second-variant `POST /auth` handler:
success carries the token, `expiresIn`, and either `none` (standard
response, no `usePngMode`/`pngFiles` fields) or `some files`
(`usePngMode: true` with the `pngFiles` array). -/
inductive AuthResponse2 where
  | ok (token : SignedToken) (expiresIn : Nat) (pngMode : Option (List String))
  | err (status : Nat) (message : String)
deriving DecidableEq, Repr

/-- JavaScript truthiness of the optional `pdfFilename` body field: present
and a non-empty string. -/
def filenameTruthy : Option String → Bool
  | none => false
  | some s => decide (s ≠ "")

/-- The second-variant `POST /auth` handler (src/server.js lines 227-271):
on password match, sign the token, compute
`shouldServePngs = SERVE_PNGS_FOR_IOS && isIOS && pdfFilename`; when it
holds and `getPngListForPdf` returns a non-empty list, answer with
`usePngMode: true` and the list; otherwise answer the standard success
response; on password mismatch answer 401 `Invalid password`. -/
def authHandler2 (password secret : String) (key : Nat) (now : Int)
    (servePngsForIOS isIOS : Bool) (pdfFilename : Option String)
    (pngsDirExists : Bool) (files : List String) : AuthResponse2 :=
  if password = secret then
    let token := jwtSign ⟨true, now⟩ key
    if servePngsForIOS && isIOS && filenameTruthy pdfFilename then
      let pngFiles := getPngListForPdf (pdfFilename.getD "") pngsDirExists files
      if 0 < pngFiles.length then .ok token 3600 (some pngFiles)
      else .ok token 3600 none
    else .ok token 3600 none
  else .err 401 ("Invalid password")

/-- One window of the per-key rate limiter: a start timestamp and a count. -/
structure RateWindow where
  start : Int
  count : Nat
deriving DecidableEq, Repr

/-- Modelled from the spec: the fixed-window counter behind
`express-rate-limit` (only its configuration appears in src/server.js).
Per spec section 4.3: if no window exists for the key or the existing
window has age exceeding `windowWidth`, start a fresh window with count 1
and allow; otherwise increment, and allow exactly when the incremented
count is at most `maxCount`. Returns the decision and the updated window. -/
def rateAllow (windowWidth : Int) (maxCount : Nat) (now : Int) :
    Option RateWindow → Bool × RateWindow
  | none => (true, ⟨now, 1⟩)
  | some w =>
    if now - w.start > windowWidth then (true, ⟨now, 1⟩)
    else (decide (w.count + 1 ≤ maxCount), ⟨w.start, w.count + 1⟩)

/-- A sequence of `rateAllow` calls for one key at the given times, threading
the window state; returns the decisions in order and the final state. -/
def runAllow (windowWidth : Int) (maxCount : Nat) :
    List Int → Option RateWindow → List Bool × Option RateWindow
  | [], st => ([], st)
  | t :: ts, st =>
    let r := rateAllow windowWidth maxCount t st
    let rest := runAllow windowWidth maxCount ts (some r.2)
    (r.1 :: rest.1, rest.2)

/-- The decisions of a run of in-window calls whose window already counts
`c` requests out of a ceiling of `m`. -/
def allowedSeq (m c : Nat) : Nat → List Bool
  | 0 => []
  | n + 1 => decide (c + 1 ≤ m) :: allowedSeq m (c + 1) n

/-- The `pdfLimiter` window width from src/server.js line 42:
`5 * 60 * 1000` milliseconds. -/
def pdfLimiterWindowMs : Int := 5 * 60 * 1000

/-- The `pdfLimiter` ceiling from src/server.js line 43: 10 requests. -/
def pdfLimiterMax : Nat := 10

/-- Unfolding of the token checks on a structurally well-formed token. -/
lemma checkToken_some_eq (c : TokenClaims) (sig : Sig) (key : Nat) (now : Int) :
    checkToken (some ⟨c, sig⟩) key now =
      if sig = (c, key) then
        (if c.authenticated = false then .error .NotAuthenticated
         else if now - c.timestamp > ttlMs then .error .Expired
         else .ok c)
      else .error .BadSignature := by
  by_cases h : sig = (c, key) <;> simp [checkToken, jwtVerify, h]

/-- The post-token part of the pdf handler never answers with status 401:
its outcomes are 400, 404, or a stream. -/
lemma servePdf_not_unauthorized (filename : String) (fsExists : String → Bool)
    (m : String) : servePdf filename fsExists ≠ .errorJson 401 m := by
  by_cases h1 : filenameOk filename = false <;>
    by_cases h2 : fsExists ("pdfs/" ++ filename) = false <;>
      simp [servePdf, h1, h2]

/-- A grammar-valid filename consists only of class characters, carries the
`.pdf` suffix, and has length at least 5. -/
lemma filenameOk_spec (s : String) (h : filenameOk s = true) :
    (∀ c ∈ s.data, isNameChar c = true) ∧ pdfExt <:+ s.data ∧
      5 ≤ s.data.length := by
  unfold filenameOk at h
  simp only [Bool.and_eq_true, decide_eq_true_eq, List.all_eq_true] at h
  obtain ⟨⟨hlen, hdrop⟩, hall⟩ := h
  refine ⟨?_, ⟨s.data.take (s.data.length - 4), by rw [← hdrop]; exact List.take_append_drop _ _⟩, hlen⟩
  intro c hc
  rw [← List.take_append_drop (s.data.length - 4) s.data] at hc
  rcases List.mem_append.mp hc with h1 | h2
  · exact hall c h1
  · rw [hdrop] at h2
    fin_cases h2 <;> decide

/-- C1: a token presented on an asset fetch is accepted — the pdf handler
proceeds past the token checks to `servePdf` — if and only if its signature
verifies under the configured signing key, its `authenticated` claim is
true, and the elapsed time since its issuance timestamp is at most the TTL
of 3600 seconds (3600000 ms); and when the signature and flag are good but
the elapsed time strictly exceeds the TTL, the checks fail with the
`Expired` outcome and the handler answers status 401. -/
theorem c1_token_acceptance (c : TokenClaims) (sig : Sig) (key : Nat)
    (now : Int) :
    (tokenAccepted (some ⟨c, sig⟩) key now = true ↔
      sig = (c, key) ∧ c.authenticated = true ∧ now - c.timestamp ≤ ttlMs) ∧
    (∀ filename fsExists,
      pdfHandler filename (some ⟨c, sig⟩) key now fsExists =
          servePdf filename fsExists ↔
        tokenAccepted (some ⟨c, sig⟩) key now = true) ∧
    (sig = (c, key) → c.authenticated = true → now - c.timestamp > ttlMs →
      checkToken (some ⟨c, sig⟩) key now = .error .Expired ∧
      ∀ filename fsExists,
        pdfHandler filename (some ⟨c, sig⟩) key now fsExists =
          .errorJson 401 ("Token expired")) := by
  refine ⟨?_, ?_, ?_⟩
  · rw [tokenAccepted, checkToken_some_eq]
    by_cases hs : sig = (c, key) <;>
      by_cases ha : c.authenticated = false <;>
        by_cases ht : now - c.timestamp > ttlMs <;>
          simp [hs, ha, ht] <;> omega
  · intro filename fsExists
    rw [pdfHandler, tokenAccepted]
    cases hc : checkToken (some ⟨c, sig⟩) key now with
    | error e =>
      simp only
      constructor
      · intro h
        exact absurd h.symm (servePdf_not_unauthorized _ _ _)
      · intro h
        exact absurd h (by simp)
    | ok d => simp
  · intro hs ha ht
    have hce : checkToken (some ⟨c, sig⟩) key now = .error .Expired := by
      rw [checkToken_some_eq]
      simp [hs, ha, ht]
    refine ⟨hce, ?_⟩
    intro filename fsExists
    simp [pdfHandler, hce, tokenErrorMessage]

/-- Closed instance of C1: a well-signed authenticated token checked
3600001 ms after issuance is rejected as expired, and within 3600000 ms it
is accepted. -/
theorem c1_witness :
    checkToken (some ⟨⟨true, 0⟩, (⟨true, 0⟩, 7)⟩) 7 3600001 =
        .error .Expired ∧
      tokenAccepted (some ⟨⟨true, 0⟩, (⟨true, 0⟩, 7)⟩) 7 3600000 = true :=
  ⟨((c1_token_acceptance ⟨true, 0⟩ (⟨true, 0⟩, 7) 7 3600001).2.2 rfl rfl
      (by decide)).1,
    (c1_token_acceptance ⟨true, 0⟩ (⟨true, 0⟩, 7) 7 3600000).1.mpr
      ⟨rfl, rfl, by decide⟩⟩

/-- C2: a fetched name reaches the storage lookup only if it matches the
full-string-anchored grammar; every name containing a slash or backslash,
every name with a leading `..` path segment, and every name not carrying
the `.pdf` suffix fails the grammar; a grammar-failing name is answered
with status 400 `Invalid filename` once the token checks pass, and the
handler is then independent of the storage oracle (no storage access). -/
theorem c2_name_validation (s : String) :
    (('/' ∈ s.data ∨ '\\' ∈ s.data ∨ ['.', '.', '/'] <+: s.data ∨
        ['.', '.', '\\'] <+: s.data ∨ ¬ pdfExt <:+ s.data) →
      filenameOk s = false) ∧
    (∀ tok key now fsExists, tokenAccepted tok key now = true →
      filenameOk s = false →
      pdfHandler s tok key now fsExists = .errorJson 400 ("Invalid filename")) ∧
    (∀ tok key now fsExists fsE, filenameOk s = false →
      pdfHandler s tok key now fsExists = pdfHandler s tok key now fsE) := by
  refine ⟨?_, ?_, ?_⟩
  · intro hbad
    by_contra hok
    have hok' : filenameOk s = true := by
      cases h : filenameOk s
      · exact absurd h hok
      · rfl
    obtain ⟨hchars, hsuf, _⟩ := filenameOk_spec s hok'
    rcases hbad with h | h | h | h | h
    · have := hchars '/' h
      simp [isNameChar] at this
    · have := hchars '\\' h
      simp [isNameChar] at this
    · have := hchars '/' (h.subset (by decide))
      simp [isNameChar] at this
    · have := hchars '\\' (h.subset (by decide))
      simp [isNameChar] at this
    · exact h hsuf
  · intro tok key now fsExists htok hbad
    rw [pdfHandler]
    cases hc : checkToken tok key now with
    | error e => simp [tokenAccepted, hc] at htok
    | ok d => simp [servePdf, hbad]
  · intro tok key now fsExists fsE hbad
    rw [pdfHandler, pdfHandler]
    cases hc : checkToken tok key now with
    | error e => rfl
    | ok d => simp [servePdf, hbad]

/-- Closed instance of C2: the traversal attempt `../../etc/passwd.pdf`
fails the grammar and, with a valid token, is answered 400. -/
theorem c2_witness :
    filenameOk ("../../etc/passwd.pdf") = false ∧
      pdfHandler ("../../etc/passwd.pdf")
          (some ⟨⟨true, 0⟩, (⟨true, 0⟩, 7)⟩) 7 0 (fun _ => true) =
        .errorJson 400 ("Invalid filename") :=
  ⟨(c2_name_validation ("../../etc/passwd.pdf")).1 (Or.inl (by decide)),
    (c2_name_validation ("../../etc/passwd.pdf")).2.1
      (some ⟨⟨true, 0⟩, (⟨true, 0⟩, 7)⟩) 7 0 (fun _ => true) (by decide)
      (by decide)⟩

/-- C3 as stated is false: the code answers all token failures with status
401 but with three different bodies. A token with a valid signature and a
false `authenticated` flag is answered `Unauthorized`, while a valid
authenticated token past the TTL is answered `Token expired`; the two
responses differ. -/
theorem c3_counterexample :
    pdfHandler ("a.pdf") (some ⟨⟨false, 0⟩, (⟨false, 0⟩, 5)⟩) 5 0
        (fun _ => true) = .errorJson 401 ("Unauthorized") ∧
      pdfHandler ("a.pdf") (some ⟨⟨true, 0⟩, (⟨true, 0⟩, 5)⟩) 5 3600001
        (fun _ => true) = .errorJson 401 ("Token expired") ∧
      PdfResponse.errorJson 401 ("Unauthorized") ≠
        PdfResponse.errorJson 401 ("Token expired") := by
  refine ⟨by decide, by decide, by decide⟩

/-- C3 amended: every token verification failure is answered with status
401, with the body determined by the failure subtype — `Invalid token` for
both `Malformed` and `BadSignature` (which are thus not distinguishable by
the client), `Unauthorized` for `NotAuthenticated`, and `Token expired`
for `Expired` — so the subtype, except for the Malformed/BadSignature
pair, is exposed through the body while the status is uniform. -/
theorem c3_amended_responses (tok : Option SignedToken) (key : Nat)
    (now : Int) (filename : String) (fsExists : String → Bool)
    (e : TokenError) (h : checkToken tok key now = .error e) :
    pdfHandler filename tok key now fsExists =
        .errorJson 401 (tokenErrorMessage e) ∧
      tokenErrorMessage .Malformed = tokenErrorMessage .BadSignature := by
  refine ⟨?_, rfl⟩
  simp [pdfHandler, h]

/-- Closed instance of the amended C3: a malformed (absent) token is
answered 401 `Invalid token`. -/
theorem c3_witness :
    pdfHandler ("a.pdf") none 5 0 (fun _ => true) =
      .errorJson 401 (tokenErrorMessage .Malformed) :=
  (c3_amended_responses none 5 0 ("a.pdf") (fun _ => true) .Malformed rfl).1

/-- C4: the storage existence check happens only after grammar validation.
For a grammar-failing name the handler output does not depend on the
storage oracle at all (no existence check or read is performed), and a 404
`PDF not found` answer can only arise for a grammar-valid name. -/
theorem c4_validation_before_storage (filename : String)
    (tok : Option SignedToken) (key : Nat) (now : Int) :
    (∀ fsExists fsE, filenameOk filename = false →
      pdfHandler filename tok key now fsExists =
        pdfHandler filename tok key now fsE) ∧
    (∀ fsExists,
      pdfHandler filename tok key now fsExists =
          .errorJson 404 ("PDF not found") →
        filenameOk filename = true) := by
  constructor
  · intro fsExists fsE hbad
    rw [pdfHandler, pdfHandler]
    cases hc : checkToken tok key now with
    | error e => rfl
    | ok d => simp [servePdf, hbad]
  · intro fsExists h404
    rw [pdfHandler] at h404
    cases hc : checkToken tok key now with
    | error e => simp [hc] at h404
    | ok d =>
      rw [hc] at h404
      simp only at h404
      cases hb : filenameOk filename
      · rw [servePdf, hb] at h404
        simp at h404
      · rfl

/-- Closed instance of C4: for the invalid name `a/b.pdf` the handler
answers identically under a storage where everything exists and one where
nothing does, and the valid name `a.pdf` can produce a 404. -/
theorem c4_witness :
    pdfHandler ("a/b.pdf") (some ⟨⟨true, 0⟩, (⟨true, 0⟩, 7)⟩) 7 0
        (fun _ => true) =
      pdfHandler ("a/b.pdf") (some ⟨⟨true, 0⟩, (⟨true, 0⟩, 7)⟩) 7 0
        (fun _ => false) :=
  (c4_validation_before_storage ("a/b.pdf")
      (some ⟨⟨true, 0⟩, (⟨true, 0⟩, 7)⟩) 7 0).1
    (fun _ => true) (fun _ => false) (by decide)

/-- Inserting an element permutes consing it. -/
lemma insertSorted_perm {α : Type} (le : α → α → Bool) (x : α) :
    ∀ l : List α, (insertSorted le x l).Perm (x :: l) := by
  intro l
  induction l with
  | nil => rfl
  | cons y ys ih =>
    rw [insertSorted]
    by_cases h : le y x = true
    · rw [if_pos h]
      exact (ih.cons y).trans (List.Perm.swap x y ys)
    · rw [if_neg h]

/-- Folding insertions over a list permutes appending it. -/
lemma foldl_insert_perm {α : Type} (le : α → α → Bool) :
    ∀ (l acc : List α),
      (l.foldl (fun a x => insertSorted le x a) acc).Perm (acc ++ l) := by
  intro l
  induction l with
  | nil => intro acc; simp
  | cons x xs ih =>
    intro acc
    rw [List.foldl_cons]
    refine (ih (insertSorted le x acc)).trans ?_
    refine (((insertSorted_perm le x acc).append_right xs).trans ?_)
    exact List.perm_middle.symm

/-- The stable sort permutes its input: no entry is added or removed. -/
lemma stableSort_perm {α : Type} (le : α → α → Bool) (l : List α) :
    (stableSort le l).Perm l := by
  simpa using foldl_insert_perm le l []

/-- Inserting into a sorted list keeps it sorted, given a transitive and
total comparator. -/
lemma insertSorted_pairwise {α : Type} (le : α → α → Bool)
    (htrans : ∀ a b c, le a b = true → le b c = true → le a c = true)
    (htotal : ∀ a b, (le a b || le b a) = true) (x : α) :
    ∀ l : List α, l.Pairwise (fun a b => le a b = true) →
      (insertSorted le x l).Pairwise (fun a b => le a b = true) := by
  intro l
  induction l with
  | nil => intro _; simp [insertSorted]
  | cons y ys ih =>
    intro h
    rw [insertSorted]
    by_cases hle : le y x = true
    · rw [if_pos hle]
      refine List.Pairwise.cons ?_ (ih (List.Pairwise.of_cons h))
      intro z hz
      rcases List.mem_cons.mp ((insertSorted_perm le x ys).mem_iff.mp hz)
        with hz1 | hz2
      · rw [hz1]; exact hle
      · exact List.rel_of_pairwise_cons h hz2
    · rw [if_neg hle]
      have hxy : le x y = true := by
        rcases Bool.or_eq_true_iff.mp (htotal y x) with h1 | h1
        · exact absurd h1 hle
        · exact h1
      refine List.Pairwise.cons ?_ h
      intro z hz
      rcases List.mem_cons.mp hz with hz1 | hz2
      · rw [hz1]; exact hxy
      · exact htrans x y z hxy (List.rel_of_pairwise_cons h hz2)

/-- The stable sort produces a list sorted by the comparator, given a
transitive and total comparator. -/
lemma stableSort_pairwise {α : Type} (le : α → α → Bool)
    (htrans : ∀ a b c, le a b = true → le b c = true → le a c = true)
    (htotal : ∀ a b, (le a b || le b a) = true) (l : List α) :
    (stableSort le l).Pairwise (fun a b => le a b = true) := by
  have haux : ∀ (l acc : List α),
      acc.Pairwise (fun a b => le a b = true) →
      (l.foldl (fun a x => insertSorted le x a) acc).Pairwise
        (fun a b => le a b = true) := by
    intro l
    induction l with
    | nil => intro acc h; rw [List.foldl_nil]; exact h
    | cons x xs ih =>
      intro acc h
      rw [List.foldl_cons]
      exact ih (insertSorted le x acc)
        (insertSorted_pairwise le htrans htotal x acc h)
  exact haux l [] (by simp)

/-- The comparator is transitive. -/
lemma pngLe_trans (a b c : String) (hab : pngLe a b = true)
    (hbc : pngLe b c = true) : pngLe a c = true := by
  simp only [pngLe, decide_eq_true_eq] at *
  exact Nat.le_trans hab hbc

/-- The comparator is total. -/
lemma pngLe_total (a b : String) : (pngLe a b || pngLe b a) = true := by
  simp only [pngLe, Bool.or_eq_true, decide_eq_true_eq]
  exact Nat.le_total _ _

/-- C5: the derivative manifest is sorted ascending by the parsed page
number (missing or unparseable numbers count as 0 and do not exclude the
entry — the manifest is a permutation of the filtered listing); the sample
listing is returned in numeric, not lexical, order; and an empty or
non-matching listing yields an empty manifest. -/
theorem c5_manifest_sorted (p : String) (d : Bool) (files : List String) :
    (getPngListForPdf p d files).Pairwise
        (fun a b => pngPageNum a ≤ pngPageNum b) ∧
      (getPngListForPdf p true files).Perm
        (files.filter (pngMatches (jsReplaceOnce p (".pdf")))) ∧
      getPngListForPdf ("report.pdf") true
          ["report-2.png", "report-1.png", "report-10.png"] =
        ["report-1.png", "report-2.png", "report-10.png"] ∧
      getPngListForPdf p d [] = [] ∧
      ((∀ f ∈ files, pngMatches (jsReplaceOnce p (".pdf")) f = false) →
        getPngListForPdf p d files = []) := by
  refine ⟨?_, ?_, by decide, ?_, ?_⟩
  · by_cases hd : d = false
    · simp [getPngListForPdf, hd]
    · simp only [getPngListForPdf, if_neg hd]
      have hs := stableSort_pairwise pngLe pngLe_trans pngLe_total
        (files.filter (pngMatches (jsReplaceOnce p (".pdf"))))
      exact hs.imp (fun h => by simpa [pngLe] using h)
  · have hu : getPngListForPdf p true files =
        stableSort pngLe
          (files.filter (pngMatches (jsReplaceOnce p (".pdf")))) := by
      simp [getPngListForPdf]
    rw [hu]
    exact stableSort_perm pngLe _
  · by_cases hd : d = false <;> simp [getPngListForPdf, hd, stableSort]
  · intro hnone
    have hfil : files.filter (pngMatches (jsReplaceOnce p (".pdf"))) = [] :=
      List.filter_eq_nil_iff.mpr (fun a ha => by simp [hnone a ha])
    by_cases hd : d = false <;> simp [getPngListForPdf, hd, hfil, stableSort]

/-- Closed instance of C5: a listing with no matching entry yields the
empty manifest. -/
theorem c5_witness :
    getPngListForPdf ("report.pdf") true ["other.txt", "report.png"] = [] :=
  (c5_manifest_sorted ("report.pdf") true
      ["other.txt", "report.png"]).2.2.2.2 (by decide)

/-- On a correct password the second-variant auth handler answers success
with the freshly signed token and `expiresIn` 3600, for some value of the
optional png fields. -/
lemma authHandler2_success (password secret : String) (key : Nat) (now : Int)
    (sp ios : Bool) (pf : Option String) (dx : Bool) (files : List String)
    (h : password = secret) :
    ∃ png, authHandler2 password secret key now sp ios pf dx files =
      .ok (jwtSign ⟨true, now⟩ key) 3600 png := by
  by_cases h1 : (sp && ios && filenameTruthy pf) = true
  · by_cases h2 : 0 < (getPngListForPdf (pf.getD "") dx files).length
    · exact ⟨some (getPngListForPdf (pf.getD "") dx files),
        by simp [authHandler2, h, h1, h2]⟩
    · exact ⟨none, by simp [authHandler2, h, h1, h2]⟩
  · exact ⟨none, by simp [authHandler2, h, h1]⟩

/-- C6: the login operation succeeds — success with a freshly issued token
over `{authenticated: true, timestamp: now}` and `expiresIn` 3600 — if and
only if the submitted password equals the configured secret; otherwise it
answers status 401 with message `Invalid password` and issues no token.
Both handler variants are covered. -/
theorem c6_login (password secret : String) (key : Nat) (now : Int) :
    (authHandler password secret key now =
        .ok (jwtSign ⟨true, now⟩ key) 3600 ↔ password = secret) ∧
      (password ≠ secret →
        authHandler password secret key now = .err 401 ("Invalid password")) ∧
      (∀ sp ios pf dx files,
        (authHandler2 password secret key now sp ios pf dx files =
            .err 401 ("Invalid password") ↔ password ≠ secret) ∧
        (password = secret → ∃ png,
          authHandler2 password secret key now sp ios pf dx files =
            .ok (jwtSign ⟨true, now⟩ key) 3600 png)) := by
  refine ⟨?_, ?_, ?_⟩
  · by_cases h : password = secret <;> simp [authHandler, h]
  · intro h
    simp [authHandler, h]
  · intro sp ios pf dx files
    constructor
    · by_cases h : password = secret
      · obtain ⟨png, hp⟩ := authHandler2_success password secret key now
          sp ios pf dx files h
        rw [hp]
        simp [h]
      · simp [authHandler2, h]
    · exact authHandler2_success password secret key now sp ios pf dx files

/-- Closed instance of C6: the wrong password is denied with 401
`Invalid password`, and the right one is issued a token. -/
theorem c6_witness :
    authHandler ("wrong") ("s3cret") 7 0 = .err 401 ("Invalid password") ∧
      authHandler ("s3cret") ("s3cret") 7 0 =
        .ok (jwtSign ⟨true, 0⟩ 7) 3600 :=
  ⟨(c6_login ("wrong") ("s3cret") 7 0).2.1 (by decide),
    (c6_login ("s3cret") ("s3cret") 7 0).1.mpr rfl⟩

/-- A run of calls that all fall inside the current window increments the
count once per call and allows exactly the calls whose incremented count
stays at or below the ceiling. -/
lemma runAllow_steady (width : Int) (m : Nat) (s : Int) :
    ∀ (ts : List Int) (c : Nat), (∀ t ∈ ts, ¬ t - s > width) →
      runAllow width m ts (some ⟨s, c⟩) =
        (allowedSeq m c ts.length, some ⟨s, c + ts.length⟩) := by
  intro ts
  induction ts with
  | nil => intro c _; simp [runAllow, allowedSeq]
  | cons t ts ih =>
    intro c h
    have ht : ¬ t - s > width := h t (by simp)
    rw [runAllow]
    simp only [rateAllow, if_neg ht]
    rw [ih (c + 1) (fun u hu => h u (by simp [hu]))]
    simp [allowedSeq]
    omega

/-- C7: the rate limiter is a fixed-window counter — a missing or aged-out
window is replaced by a fresh one with count 1 and the call is allowed,
otherwise the count is incremented and the call is allowed exactly when the
incremented count is at most the ceiling; consequently for a fresh key with
ceiling 10 the first 10 calls inside one window are allowed, the 11th is
denied, and the first call after the window elapses is allowed again. -/
theorem c7_rate_limiter (width : Int) (s t2 : Int) (ts : List Int)
    (hlen : ts.length = 10) (hin : ∀ t ∈ ts, ¬ t - s > width)
    (hout : t2 - s > width) :
    (∀ (m : Nat) (now : Int), rateAllow width m now none = (true, ⟨now, 1⟩)) ∧
      (∀ (m : Nat) (now : Int) (w : RateWindow), now - w.start > width →
        rateAllow width m now (some w) = (true, ⟨now, 1⟩)) ∧
      (∀ (m : Nat) (now : Int) (w : RateWindow), ¬ now - w.start > width →
        rateAllow width m now (some w) =
          (decide (w.count + 1 ≤ m), ⟨w.start, w.count + 1⟩)) ∧
      (runAllow width 10 (s :: ts) none).1 =
        List.replicate 10 true ++ [false] ∧
      (rateAllow width 10 t2 (some ⟨s, 11⟩)).1 = true := by
  refine ⟨fun m now => rfl, ?_, ?_, ?_, ?_⟩
  · intro m now w hw
    simp [rateAllow, if_pos hw]
  · intro m now w hw
    simp [rateAllow, if_neg hw]
  · have hstep : (runAllow width 10 (s :: ts) none).1 =
        true :: (runAllow width 10 ts (some ⟨s, 1⟩)).1 := rfl
    rw [hstep, runAllow_steady width 10 s ts 1 hin, hlen]
    show true :: allowedSeq 10 1 10 = List.replicate 10 true ++ [false]
    decide
  · simp [rateAllow, if_pos hout]

/-- Closed instance of C7: with the pdf limiter window of five minutes and
ceiling 10, eleven immediate calls yield ten allows then a deny, and a call
after the window elapses is allowed. -/
theorem c7_witness :
    (runAllow pdfLimiterWindowMs 10
        [0, 1, 2, 3, 4, 5, 6, 7, 8, 9, 10] none).1 =
      List.replicate 10 true ++ [false] ∧
    (rateAllow pdfLimiterWindowMs 10 300001 (some ⟨0, 11⟩)).1 = true :=
  ⟨(c7_rate_limiter pdfLimiterWindowMs 0 300001
      [1, 2, 3, 4, 5, 6, 7, 8, 9, 10] (by decide) (by decide)
      (by decide)).2.2.2.1,
    (c7_rate_limiter pdfLimiterWindowMs 0 300001
      [1, 2, 3, 4, 5, 6, 7, 8, 9, 10] (by decide) (by decide)
      (by decide)).2.2.2.2⟩

/-- C9: the derivative manifest computation only filters the listing of the
fixed derivative directory — every entry it returns is an entry of that
listing, for every client-supplied primary name (including names containing
slashes, backslashes or dot-dot segments, which are never validated on this
path); the name is never used to form a filesystem path. -/
theorem c9_manifest_subset (pdfFilename : String) (dirExists : Bool)
    (files : List String) :
    ∀ f ∈ getPngListForPdf pdfFilename dirExists files, f ∈ files := by
  intro f hf
  by_cases hd : dirExists = false
  · simp [getPngListForPdf, hd] at hf
  · simp only [getPngListForPdf, if_neg hd] at hf
    exact (List.mem_filter.mp
      ((stableSort_perm pngLe _).mem_iff.mp hf)).1

/-- Closed instance of C9: an entry returned for a traversal-shaped name is
still an entry of the fixed directory listing. -/
theorem c9_witness :
    ("../../x-1.png" : String) ∈ (["../../x-1.png"] : List String) :=
  c9_manifest_subset ("../../x.pdf") true ["../../x-1.png"] ("../../x-1.png")
    (by decide)

/-- C10: when png mode is requested (flag on, iOS client, filename
supplied) but the computed manifest is empty, login still succeeds with the
standard response — fresh token, `expiresIn` 3600, and no
`usePngMode`/`pngFiles` fields; the png fields appear only with a non-empty
manifest. -/
theorem c10_empty_manifest (password secret : String) (key : Nat)
    (now : Int) (ios : Bool) (pf : Option String) (dx : Bool)
    (files : List String) :
    (password = secret → ios = true → filenameTruthy pf = true →
      getPngListForPdf (pf.getD "") dx files = [] →
      authHandler2 password secret key now true ios pf dx files =
        .ok (jwtSign ⟨true, now⟩ key) 3600 none) ∧
    (∀ (sp : Bool) (t : SignedToken) (e : Nat) (l : List String),
      authHandler2 password secret key now sp ios pf dx files =
          .ok t e (some l) → l ≠ []) := by
  constructor
  · intro h hios htr hempty
    simp [authHandler2, h, hios, htr, hempty]
  · intro sp t e l hl
    by_cases h : password = secret
    · by_cases h1 : (sp && ios && filenameTruthy pf) = true
      · by_cases h2 : 0 < (getPngListForPdf (pf.getD "") dx files).length
        · simp [authHandler2, h, h1, h2] at hl
          have : l = getPngListForPdf (pf.getD "") dx files := hl.2.2.symm
          rw [this]
          exact List.ne_nil_of_length_pos h2
        · simp [authHandler2, h, h1, h2] at hl
      · simp [authHandler2, h, h1] at hl
    · simp [authHandler2, h] at hl

/-- Closed instance of C10: png mode requested, directory missing, manifest
empty — the standard success response is returned. -/
theorem c10_witness :
    authHandler2 ("s3cret") ("s3cret") 7 0 true true (some ("report.pdf"))
        false [] = .ok (jwtSign ⟨true, 0⟩ 7) 3600 none :=
  (c10_empty_manifest ("s3cret") ("s3cret") 7 0 true (some ("report.pdf"))
      false []).1 rfl rfl (by decide) (by decide)

end PdfServer
